import Mathlib

/-!
Verification of the task-list controller in `frontend/src/App.vue`.

The controller keeps an in-memory list of task records plus transient UI
state (the add-input draft, and an edit session consisting of the id being
edited and a draft title).  Each event handler is embedded as a pure
function from the current state (and, for handlers that await a remote
call, the outcome of that call) to the successor state together with the
request the handler issued, if any.  The remote service is external, so a
call outcome is an explicit `Except` parameter.
-/

namespace TodoApp

/-- Wire shape of a task record: `{ id, title, description, is_completed }`. -/
structure Task where
  id : Nat
  title : String
  description : Option String
  is_completed : Bool
deriving DecidableEq, Repr

/-- Body of the PUT issued by `saveEdit`: title, description, completion. -/
structure PutBody where
  title : String
  description : Option String
  is_completed : Bool
deriving DecidableEq, Repr

/-- The HTTP requests the controller can issue against the collection. -/
inductive Request where
  | get : Request
  | post (title : String) (is_completed : Bool) : Request
  | put (id : Nat) (body : PutBody) : Request
  | putFull (id : Nat) (task : Task) : Request
  | delete (id : Nat) : Request
deriving DecidableEq, Repr

/-- The controller's local state: the `todos` ref, the add-input draft
`newTaskTitle`, and the edit session `editingTaskId` / `editingTitle`. -/
structure AppState where
  todos : List Task
  newTaskTitle : String
  editingTaskId : Option Nat
  editingTitle : String
deriving DecidableEq, Repr

/-- In-place update of the element at index `i` (Vue mutates the task
object held inside the reactive list). Out-of-range indices are a no-op. -/
def modifyTodo : List Task → Nat → (Task → Task) → List Task
  | [], _, _ => []
  | t :: ts, 0, f => f t :: ts
  | t :: ts, i + 1, f => t :: modifyTodo ts i f

/-- The guard `newTaskTitle.value.trim() === ''`: a string trims to the
empty string exactly when every character is whitespace. -/
def isBlank (s : String) : Bool := s.data.all Char.isWhitespace

/-- `addTask`: rejects a blank (whitespace-only) draft locally; otherwise
POSTs `{title, is_completed:false}`; on success pushes the server record
and clears the draft; on failure only logs. -/
def addTask (s : AppState) (result : Except Unit Task) : AppState × Option Request :=
  if isBlank s.newTaskTitle then (s, none)
  else
    let req := Request.post s.newTaskTitle false
    match result with
    | .ok data => ({ s with todos := s.todos ++ [data], newTaskTitle := "" }, some req)
    | .error _ => (s, some req)

/-- `deleteTask`: returns immediately unless the confirm dialog is
accepted; otherwise DELETEs the id and, on success, filters the id out of
the local list; on failure only logs. -/
def deleteTask (s : AppState) (id : Nat) (confirmed : Bool) (result : Except Unit Unit) :
    AppState × Option Request :=
  if !confirmed then (s, none)
  else
    match result with
    | .ok _ => ({ s with todos := s.todos.filter (fun todo => todo.id != id) }, some (.delete id))
    | .error _ => (s, some (.delete id))

/-- `startEditing`: records the task's id and copies its title into the
edit draft; no request. -/
def startEditing (s : AppState) (todo : Task) : AppState × Option Request :=
  ({ s with editingTaskId := some todo.id, editingTitle := todo.title }, none)

/-- `cancelEdit`: clears the edit session unconditionally; no request. -/
def cancelEdit (s : AppState) : AppState × Option Request :=
  ({ s with editingTaskId := none, editingTitle := "" }, none)

/-- JavaScript `Array.prototype.findIndex`: position of the first element
satisfying `p` (`none` models the `-1` result). -/
def findIndex (p : Task → Bool) : List Task → Option Nat
  | [] => none
  | t :: ts => if p t then some 0 else (findIndex p ts).map (fun n => n + 1)

/-- `saveEdit`: PUTs the draft title together with the task's existing
description and completion flag; on success replaces the entry found by
`findIndex` (if any) with the response record and then calls `cancelEdit`;
on failure only logs (the edit session stays as it was). -/
def saveEdit (s : AppState) (todo : Task) (result : Except Unit Task) :
    AppState × Option Request :=
  let req := Request.put todo.id
    { title := s.editingTitle, description := todo.description,
      is_completed := todo.is_completed }
  match result with
  | .ok data =>
    let todos1 :=
      match findIndex (fun t => t.id == todo.id) s.todos with
      | some index => s.todos.set index data
      | none => s.todos
    ((cancelEdit { s with todos := todos1 }).1, some req)
  | .error _ => (s, some req)

/-- The state right after `todo.is_completed = !todo.is_completed`, i.e.
the optimistic flip performed before the PUT is awaited.  `i` is the
position in `todos` of the row whose checkbox was toggled. -/
def toggleOptimistic (s : AppState) (i : Nat) : AppState :=
  { s with todos := modifyTodo s.todos i (fun t => { t with is_completed := !t.is_completed }) }

/-- `toggleTodoStatus`: flips the flag in place, PUTs the whole mutated
task object, and on failure writes the saved `originalStatus` back; on
success nothing further happens (the response body is discarded).  The
handler is only ever invoked on a rendered row, so `i` indexes into
`todos`; the `none` branch is unreachable in the UI. -/
def toggleTodoStatus (s : AppState) (i : Nat) (result : Except Unit Task) :
    AppState × Option Request :=
  match s.todos[i]? with
  | none => (s, none)
  | some todo =>
    let originalStatus := todo.is_completed
    let s1 := toggleOptimistic s i
    let req := Request.putFull todo.id { todo with is_completed := !originalStatus }
    match result with
    | .ok _ => (s1, some req)
    | .error _ =>
      ({ s1 with todos := modifyTodo s1.todos i (fun t => { t with is_completed := originalStatus }) },
       some req)

/-- `onMounted` fetch: GETs the collection and replaces the list wholesale
on success; on failure only logs. -/
def fetchTasks (s : AppState) (result : Except Unit (List Task)) : AppState × Option Request :=
  match result with
  | .ok data => ({ s with todos := data }, some .get)
  | .error _ => (s, some .get)

/-! ### Helper lemmas -/

theorem get?_modifyTodo (l : List Task) (i : Nat) (f : Task → Task) :
    (modifyTodo l i f)[i]? = l[i]?.map f := by
  induction l generalizing i with
  | nil => rfl
  | cons a ts ih =>
    cases i with
    | zero => simp [modifyTodo]
    | succ n => simpa [modifyTodo] using ih n

theorem modifyTodo_modifyTodo (l : List Task) (i : Nat) (f g : Task → Task) :
    modifyTodo (modifyTodo l i f) i g = modifyTodo l i (fun t => g (f t)) := by
  induction l generalizing i with
  | nil => rfl
  | cons a ts ih =>
    cases i with
    | zero => rfl
    | succ n => simp [modifyTodo, ih]

theorem modifyTodo_eq_self (l : List Task) (i : Nat) (f : Task → Task) (t : Task)
    (h : l[i]? = some t) (hf : f t = t) : modifyTodo l i f = l := by
  induction l generalizing i with
  | nil => simp at h
  | cons a ts ih =>
    cases i with
    | zero =>
      simp at h
      subst h
      simp [modifyTodo, hf]
    | succ n =>
      simp at h
      simp [modifyTodo, ih n h]

theorem findIndex_eq_none (p : Task → Bool) (l : List Task)
    (h : ∀ t ∈ l, p t = false) : findIndex p l = none := by
  induction l with
  | nil => rfl
  | cons a ts ih =>
    have ha := h a (by simp)
    simp [findIndex, ha, ih (fun t ht => h t (by simp [ht]))]

theorem length_filter_countP (id : Nat) (l : List Task) :
    (l.filter (fun t => t.id != id)).length + l.countP (fun t => t.id == id) = l.length := by
  induction l with
  | nil => rfl
  | cons a ts ih =>
    cases h : (a.id == id) with
    | false =>
      have hb : (a.id != id) = true := by simp [bne, h]
      simp [List.filter_cons, List.countP_cons, hb, h]
      omega
    | true =>
      have hb : (a.id != id) = false := by simp [bne, h]
      simp [List.filter_cons, List.countP_cons, hb, h]
      omega

/-! ### Claim theorems -/

/-- C2: after a successful create with a non-blank draft title, the local
list grows by exactly one, the server-returned record (with its assigned
id) is appended at the end, and the input draft is cleared to empty. -/
theorem addTask_success_appends (s : AppState) (task : Task)
    (h : isBlank s.newTaskTitle = false) :
    (addTask s (Except.ok task)).1.todos = s.todos ++ [task]
    ∧ (addTask s (Except.ok task)).1.todos.length = s.todos.length + 1
    ∧ (addTask s (Except.ok task)).1.newTaskTitle = "" := by
  simp [addTask, h]

theorem addTask_success_appends_witness :
    isBlank (AppState.mk [] "A" none "").newTaskTitle = false
    ∧ (addTask (AppState.mk [] "A" none "") (Except.ok (Task.mk 1 "A" none false))).1.todos
        = [Task.mk 1 "A" none false] :=
  ⟨by decide,
    (addTask_success_appends (AppState.mk [] "A" none "")
      (Task.mk 1 "A" none false) (by decide)).1⟩

/-- C3: an empty or whitespace-only draft title issues no request and
leaves the whole state unchanged, whatever the (hypothetical) outcome. -/
theorem addTask_blank_noop (s : AppState) (result : Except Unit Task)
    (h : isBlank s.newTaskTitle = true) : addTask s result = (s, none) := by
  simp [addTask, h]

theorem addTask_blank_noop_witness :
    isBlank (AppState.mk [] "  " none "").newTaskTitle = true
    ∧ addTask (AppState.mk [] "  " none "") (Except.error ())
        = (AppState.mk [] "  " none "", none) :=
  ⟨by decide, addTask_blank_noop _ _ (by decide)⟩

/-- C5: the replace request issued by `saveEdit` carries exactly the draft
title together with the task's existing description and completion flag,
both unmodified, whatever the outcome. -/
theorem saveEdit_request_body (s : AppState) (todo : Task) (result : Except Unit Task) :
    (saveEdit s todo result).2 =
      some (Request.put todo.id
        { title := s.editingTitle, description := todo.description,
          is_completed := todo.is_completed }) := by
  cases result <;> rfl

/-- C7: every failed remote call leaves the local state exactly as it was
before the call: the draft survives a failed create, the edit session
survives a failed save, and delete / list-fetch change nothing. -/
theorem failed_call_state_preserved (s : AppState) (todo : Task) (id : Nat)
    (confirmed : Bool) :
    (addTask s (Except.error ())).1 = s
    ∧ (saveEdit s todo (Except.error ())).1 = s
    ∧ (deleteTask s id confirmed (Except.error ())).1 = s
    ∧ (fetchTasks s (Except.error ())).1 = s := by
  refine ⟨?_, rfl, ?_, rfl⟩
  · unfold addTask; split <;> rfl
  · unfold deleteTask; split <;> rfl

/-- C8: when the confirmation prompt is declined, delete sends no request
and leaves the entire local state unchanged (so a request is only ever
issued after an accepted confirmation). -/
theorem deleteTask_declined_noop (s : AppState) (id : Nat) (result : Except Unit Unit) :
    deleteTask s id false result = (s, none) := rfl

/-- C9: Start Edit and Cancel Edit issue no request and touch no entry of
the task list; Start Edit records the target id and copies its current
title into the draft, Cancel Edit clears the session unconditionally. -/
theorem startEditing_cancelEdit_pure_local (s : AppState) (todo : Task) :
    (startEditing s todo).2 = none
    ∧ (startEditing s todo).1.todos = s.todos
    ∧ (startEditing s todo).1.editingTaskId = some todo.id
    ∧ (startEditing s todo).1.editingTitle = todo.title
    ∧ (startEditing s todo).1.newTaskTitle = s.newTaskTitle
    ∧ (cancelEdit s).2 = none
    ∧ (cancelEdit s).1.todos = s.todos
    ∧ (cancelEdit s).1.editingTaskId = none
    ∧ (cancelEdit s).1.editingTitle = ""
    ∧ (cancelEdit s).1.newTaskTitle = s.newTaskTitle :=
  ⟨rfl, rfl, rfl, rfl, rfl, rfl, rfl, rfl, rfl, rfl⟩

/-- C1: toggling flips the flag at its row before the replace request is
sent (the request already carries the flipped flag); on failure the state
reverts exactly to its pre-toggle value; on success nothing further is
applied — the state stays the optimistically flipped one for every
response body. -/
theorem toggle_optimistic_flip_and_rollback (s : AppState) (i : Nat) (todo : Task)
    (h : s.todos[i]? = some todo) :
    (toggleOptimistic s i).todos[i]? = some { todo with is_completed := !todo.is_completed }
    ∧ (∀ result, (toggleTodoStatus s i result).2 =
        some (Request.putFull todo.id { todo with is_completed := !todo.is_completed }))
    ∧ (toggleTodoStatus s i (Except.error ())).1 = s
    ∧ (∀ resp, (toggleTodoStatus s i (Except.ok resp)).1 = toggleOptimistic s i) := by
  have hlist : modifyTodo (modifyTodo s.todos i
      (fun t => { t with is_completed := !t.is_completed })) i
      (fun t => { t with is_completed := todo.is_completed }) = s.todos := by
    rw [modifyTodo_modifyTodo]
    exact modifyTodo_eq_self _ _ _ todo h (by cases todo; rfl)
  refine ⟨?_, ?_, ?_, ?_⟩
  · simp [toggleOptimistic, get?_modifyTodo, h]
  · intro result
    cases result <;> simp [toggleTodoStatus, h]
  · simp only [toggleTodoStatus, h, toggleOptimistic]
    rw [hlist]
  · intro resp
    simp [toggleTodoStatus, h]

theorem toggle_optimistic_flip_and_rollback_witness :
    (AppState.mk [Task.mk 1 "A" none false] "" none "").todos[0]?
        = some (Task.mk 1 "A" none false)
    ∧ (toggleTodoStatus (AppState.mk [Task.mk 1 "A" none false] "" none "") 0
        (Except.error ())).1 = AppState.mk [Task.mk 1 "A" none false] "" none "" :=
  ⟨rfl, (toggle_optimistic_flip_and_rollback
    (AppState.mk [Task.mk 1 "A" none false] "" none "") 0
    (Task.mk 1 "A" none false) rfl).2.2.1⟩

/-- C4: a successful confirmed delete of an id that occurs exactly once
leaves no entry with that id in the list and shrinks the list by exactly
one. -/
theorem deleteTask_success_removes (s : AppState) (id : Nat)
    (h : s.todos.countP (fun t => t.id == id) = 1) :
    (∀ t ∈ (deleteTask s id true (Except.ok ())).1.todos, t.id ≠ id)
    ∧ (deleteTask s id true (Except.ok ())).1.todos.length + 1 = s.todos.length := by
  have hd : (deleteTask s id true (Except.ok ())).1.todos
      = s.todos.filter (fun t => t.id != id) := rfl
  constructor
  · intro t ht
    rw [hd] at ht
    simpa using (List.mem_filter.mp ht).2
  · rw [hd]
    have := length_filter_countP id s.todos
    omega

theorem deleteTask_success_removes_witness :
    (AppState.mk [Task.mk 1 "A" none false] "" none "").todos.countP
        (fun t => t.id == 1) = 1
    ∧ (deleteTask (AppState.mk [Task.mk 1 "A" none false] "" none "") 1 true
        (Except.ok ())).1.todos.length + 1
      = (AppState.mk [Task.mk 1 "A" none false] "" none "").todos.length :=
  ⟨by decide, (deleteTask_success_removes
    (AppState.mk [Task.mk 1 "A" none false] "" none "") 1 (by decide)).2⟩

/-- C6: a successful save-edit replaces the matching entry with the
server's record and clears the edit session; a failed save-edit leaves the
whole state (the open edit session included) untouched. -/
theorem saveEdit_success_clears_session (s : AppState) (todo resp : Task) (index : Nat)
    (h : findIndex (fun t => t.id == todo.id) s.todos = some index) :
    (saveEdit s todo (Except.ok resp)).1.editingTaskId = none
    ∧ (saveEdit s todo (Except.ok resp)).1.editingTitle = ""
    ∧ (saveEdit s todo (Except.ok resp)).1.todos = s.todos.set index resp
    ∧ (saveEdit s todo (Except.error ())).1 = s := by
  simp [saveEdit, cancelEdit, h]

theorem saveEdit_success_clears_session_witness :
    findIndex (fun t => t.id == (Task.mk 1 "A" none false).id)
        (AppState.mk [Task.mk 1 "A" none false] "" (some 1) "B").todos = some 0
    ∧ (saveEdit (AppState.mk [Task.mk 1 "A" none false] "" (some 1) "B")
        (Task.mk 1 "A" none false) (Except.ok (Task.mk 1 "B" none false))).1.editingTaskId
      = none :=
  ⟨by decide, (saveEdit_success_clears_session
    (AppState.mk [Task.mk 1 "A" none false] "" (some 1) "B")
    (Task.mk 1 "A" none false) (Task.mk 1 "B" none false) 0 (by decide)).1⟩

/-- C10: a successful save-edit for an id absent from the local list
leaves the list (and the add draft) unchanged, yet still clears the edit
session. -/
theorem saveEdit_missing_id_list_unchanged (s : AppState) (todo resp : Task)
    (h : ∀ t ∈ s.todos, t.id ≠ todo.id) :
    (saveEdit s todo (Except.ok resp)).1.todos = s.todos
    ∧ (saveEdit s todo (Except.ok resp)).1.editingTaskId = none
    ∧ (saveEdit s todo (Except.ok resp)).1.editingTitle = ""
    ∧ (saveEdit s todo (Except.ok resp)).1.newTaskTitle = s.newTaskTitle := by
  have hf : findIndex (fun t => t.id == todo.id) s.todos = none :=
    findIndex_eq_none _ _ (fun t ht => by simpa using h t ht)
  simp [saveEdit, cancelEdit, hf]

theorem saveEdit_missing_id_list_unchanged_witness :
    (∀ t ∈ (AppState.mk [Task.mk 2 "B" none false] "x" (some 1) "draft").todos,
      t.id ≠ (Task.mk 1 "A" none false).id)
    ∧ (saveEdit (AppState.mk [Task.mk 2 "B" none false] "x" (some 1) "draft")
        (Task.mk 1 "A" none false) (Except.ok (Task.mk 1 "A2" none false))).1.todos
      = (AppState.mk [Task.mk 2 "B" none false] "x" (some 1) "draft").todos :=
  ⟨by decide, (saveEdit_missing_id_list_unchanged
    (AppState.mk [Task.mk 2 "B" none false] "x" (some 1) "draft")
    (Task.mk 1 "A" none false) (Task.mk 1 "A2" none false) (by decide)).1⟩

end TodoApp
